import Mathlib

/-!
# `neither::Either<L, R>`: a shallow embedding of `neither/include/either.hpp`

The header defines a two-variant sum type as an anonymous union
`{ L leftValue; R rightValue; }` together with a discriminant `bool const isLeft`.
The embedding keeps that representation: the union is a storage cell holding
exactly one member, `isLeft` is a separate boolean field, and every read of a
union member is explicit.  Reading the member the union does not hold is
undefined behaviour in the source; here it yields the fault `inactiveRead`.

Callables handed to the combinators (`leftCase`, `rightCase`) are functions into
`Outcome`: a C++ callable may fail (throw) instead of returning, and the failure
propagates out of the combinator that invoked it.  A callable that always
returns is `fun x => pure (f x)`.
-/

namespace neither

/-! ## Tagged construction tokens (either.hpp 15-44) -/

/-- The token `template<class T> struct Left { T value; }`. -/
structure Left (T : Type) where
  value : T
deriving DecidableEq

/-- The free function `left(x)`, lines 20-28 (both the `T const&` and the `T&&` overload build
`{x}`). -/
def left {T : Type} (x : T) : Left T :=
  { value := x }

/-- The token `template<class T> struct Right { T value; }`. -/
structure Right (T : Type) where
  value : T
deriving DecidableEq

/-- The free function `right(x)`, lines 35-44. -/
def right {T : Type} (x : T) : Right T :=
  { value := x }

/-! ## The optional collaborator -/

/-- Modelled from the spec: the optional value type `Maybe<T>` of `neither/maybe.hpp`, which
`either.hpp` includes but which is not among the sources.  The spec (section 3) describes it as
"a container holding zero or one value of a given type" of which the core needs two operations:
"produce an empty instance, and produce an instance wrapping a given value". -/
inductive Maybe (T : Type) where
  | empty : Maybe T
  | present (value : T) : Maybe T
deriving DecidableEq

/-- Modelled from the spec: the call `maybe(x)`, "optional wrapping value of T".  The nullary
call `maybe()`, "empty optional of T", is `Maybe.empty`. -/
def maybe {T : Type} (x : T) : Maybe T :=
  Maybe.present x

/-- Modelled from the spec: whether an optional is "present", that is, wraps a value (section 8
writes `e.right().isPresent()`). -/
def Maybe.isPresent {T : Type} : Maybe T → Bool
  | Maybe.empty => false
  | Maybe.present _ => true

/-! ## Evaluation outcomes -/

/-- The two ways an evaluation can fail to produce a value. -/
inductive Fault where
  /-- A union member was read while the union held the other member. -/
  | inactiveRead : Fault
  /-- A callable supplied by the caller failed instead of returning. -/
  | calleeFailed : Fault
  /-- A reference was read after the object it refers to had been destroyed. -/
  | expiredRead : Fault
deriving DecidableEq

/-- The result of evaluating an expression of the header: a value, or a fault. -/
abbrev Outcome (α : Type) : Type :=
  Except Fault α

/-- What a call whose declared return type may be a reference hands to its caller. -/
inductive Returned (C : Type) where
  /-- An object returned by value. -/
  | object (c : C) : Returned C
  /-- A reference to a temporary that held `c` and was destroyed when the call returned. -/
  | expired (c : C) : Returned C
deriving DecidableEq

/-- The caller reads what a call handed to it. -/
def Returned.read {C : Type} : Returned C → Outcome C
  | Returned.object c => Except.ok c
  | Returned.expired _ => Except.error Fault.expiredRead

/-- The cast `std::move(x)`: it changes the value category of `x`, not its value. -/
def move {α : Type} (x : α) : α :=
  x

/-! ## The representation (either.hpp 93-101) -/

/-- The anonymous `union { L leftValue; R rightValue; }`: one cell holding exactly one of the two
members. -/
inductive Storage (L R : Type) where
  | leftValue (l : L) : Storage L R
  | rightValue (r : R) : Storage L R
deriving DecidableEq

/-- Which member the union holds. -/
def Storage.holdsLeft {L R : Type} : Storage L R → Bool
  | Storage.leftValue _ => true
  | Storage.rightValue _ => false

/-- The type `template<class L, class R> struct Either`: the union and `bool const isLeft = 0`. -/
structure Either (L R : Type) where
  storage : Storage L R
  isLeft : Bool := false
deriving DecidableEq

namespace Either

variable {L R L2 R2 X : Type}

/-- A read of the union member `leftValue`. -/
def leftValue (e : Either L R) : Outcome L :=
  match e.storage with
  | Storage.leftValue l => Except.ok l
  | Storage.rightValue _ => Except.error Fault.inactiveRead

/-- A read of the union member `rightValue`. -/
def rightValue (e : Either L R) : Outcome R :=
  match e.storage with
  | Storage.leftValue _ => Except.error Fault.inactiveRead
  | Storage.rightValue r => Except.ok r

/-- The representation invariant: the union holds the member that `isLeft` names.  Each
constructor of the source initialises exactly one member and sets `isLeft` to match, and
`isLeft` is `const`, so every `Either` object of a program satisfies it. -/
def Valid (e : Either L R) : Prop :=
  e.storage.holdsLeft = e.isLeft

instance (e : Either L R) : Decidable e.Valid :=
  inferInstanceAs (Decidable (e.storage.holdsLeft = e.isLeft))

/-! ## Constructors (either.hpp 103-141) -/

/-- The constructors `Either(Left<L> const& l)` and `Either(Left<L>&& l)`, lines 103-106 and
113-116: `leftValue{l.value}, isLeft(1)`. -/
def ofLeft (l : Left L) : Either L R :=
  { storage := Storage.leftValue l.value, isLeft := true }

/-- The constructors `Either(Right<R> const& r)` and `Either(Right<R>&& r)`, lines 108-111 and
119-122: `rightValue{r.value}, isLeft(0)`. -/
def ofRight (r : Right R) : Either L R :=
  { storage := Storage.rightValue r.value, isLeft := false }

/-- The copy constructor `Either(Either<L, R> const& e)`, lines 124-131. -/
def copy (e : Either L R) : Outcome (Either L R) :=
  if e.isLeft then do
    let l ← e.leftValue
    pure { storage := Storage.leftValue l, isLeft := e.isLeft }
  else do
    let r ← e.rightValue
    pure { storage := Storage.rightValue r, isLeft := e.isLeft }

/-- The move constructor `Either(Either<L, R>&& e)`, lines 134-141. -/
def moveFrom (e : Either L R) : Outcome (Either L R) :=
  if e.isLeft then do
    let l ← e.leftValue
    pure { storage := Storage.leftValue (move l), isLeft := e.isLeft }
  else do
    let r ← e.rightValue
    pure { storage := Storage.rightValue (move r), isLeft := e.isLeft }

/-! ## Accessors and factories (either.hpp 152-180) -/

/-- The accessor `left() const -> Maybe<L>`, lines 152-156. -/
def left (e : Either L R) : Outcome (Maybe L) :=
  if !e.isLeft then
    pure Maybe.empty
  else do
    let l ← e.leftValue
    pure (maybe l)

/-- The accessor `right() const -> Maybe<R>`, lines 158-162. -/
def right (e : Either L R) : Outcome (Maybe R) :=
  if e.isLeft then
    pure Maybe.empty
  else do
    let r ← e.rightValue
    pure (maybe r)

/-- The factory `leftOf(L const& l)`, lines 165-167, and its `L&&` overload, lines 174-176. -/
def leftOf (l : L) : Either L R :=
  ofLeft (neither.left l)

/-- The factory `rightOf(R const& r)`, lines 169-171, and its `R&&` overload, lines 178-180. -/
def rightOf (r : R) : Either L R :=
  ofRight (neither.right r)

/-- The conversion `operator bool() const`, line 292: `!isLeft`. -/
def toBool (e : Either L R) : Bool :=
  !e.isLeft

/-! ## Combinators (either.hpp 203-289) -/

/-- The fold `join(leftCase, rightCase) const`, lines 203-207. -/
def join (e : Either L R) (leftCase : L → Outcome X) (rightCase : R → Outcome X) : Outcome X :=
  if e.isLeft then do
    let l ← e.leftValue
    leftCase l
  else do
    let r ← e.rightValue
    rightCase r

/-- The overload `leftMap(leftCase) const&`, lines 209-215. -/
def leftMap (e : Either L R) (leftCase : L → Outcome L2) : Outcome (Either L2 R) :=
  if e.isLeft then do
    let l ← e.leftValue
    let y ← leftCase l
    pure (leftOf y)
  else do
    let r ← e.rightValue
    pure (rightOf r)

/-- The overload `leftMap(leftCase) &&`, lines 217-223. -/
def leftMapRvalue (e : Either L R) (leftCase : L → Outcome L2) : Outcome (Either L2 R) :=
  if e.isLeft then do
    let l ← e.leftValue
    let y ← leftCase (move l)
    pure (leftOf y)
  else do
    let r ← e.rightValue
    pure (rightOf (move r))

/-- The overload `rightMap(rightCase) const&`, lines 225-231. -/
def rightMap (e : Either L R) (rightCase : R → Outcome R2) : Outcome (Either L R2) :=
  if e.isLeft then do
    let l ← e.leftValue
    pure (leftOf l)
  else do
    let r ← e.rightValue
    let y ← rightCase r
    pure (rightOf y)

/-- The overload `rightMap(rightCase) &&`, lines 233-239. -/
def rightMapRvalue (e : Either L R) (rightCase : R → Outcome R2) : Outcome (Either L R2) :=
  if e.isLeft then do
    let l ← e.leftValue
    pure (leftOf (move l))
  else do
    let r ← e.rightValue
    let y ← rightCase (move r)
    pure (rightOf y)

/-- The overload `leftFlatMap(leftCase) const&`, lines 241-251: the branch is chosen by
`!*this`, the boolean conversion. -/
def leftFlatMap (e : Either L R) (leftCase : L → Outcome (Either L2 R)) :
    Outcome (Either L2 R) :=
  if !e.toBool then do
    let l ← e.leftValue
    leftCase l
  else do
    let r ← e.rightValue
    pure (rightOf r)

/-- The overload `rightFlatMap(rightCase) const&`, lines 253-263: the branch is chosen by
`*this`. -/
def rightFlatMap (e : Either L R) (rightCase : R → Outcome (Either L R2)) :
    Outcome (Either L R2) :=
  if e.toBool then do
    let r ← e.rightValue
    rightCase r
  else do
    let l ← e.leftValue
    pure (leftOf l)

/-- The overload `leftFlatMap(leftCase) &&`, lines 267-277. -/
def leftFlatMapRvalue (e : Either L R) (leftCase : L → Outcome (Either L2 R)) :
    Outcome (Either L2 R) :=
  if !e.toBool then do
    let l ← e.leftValue
    leftCase (move l)
  else do
    let r ← e.rightValue
    pure (rightOf (move r))

/-- The overload `rightFlatMap(rightCase) &&`, lines 279-289. -/
def rightFlatMapRvalue (e : Either L R) (rightCase : R → Outcome (Either L R2)) :
    Outcome (Either L R2) :=
  if e.toBool then do
    let r ← e.rightValue
    rightCase (move r)
  else do
    let l ← e.leftValue
    pure (leftOf (move l))

/-! ## Collapse to the common type (either.hpp 183-201) -/

variable {C : Type}

/-- The overload `join() const`, lines 183-192: `return isLeft ? leftValue : rightValue;`.  The
common type `C` and the two conversions into it belong to the payload types, so they are
parameters.

The declared return type is
`decltype(isCopyable(leftValue, rightValue), std::declval<std::common_type_t<L2, R2>>())`.
The operand of `decltype` is a comma expression ending in a call of `std::declval`, an xvalue,
so the type is the reference type `std::common_type_t<L2, R2>&&`.  The conditional converts the
live payload to the common type, which makes a temporary; the reference returned is bound to
that temporary, and the temporary is destroyed when the function returns.  (When `L` and `R`
are one type the conditional is an lvalue of type `L const`, to which the reference cannot
bind: that instantiation is rejected by the compiler and has no behaviour.) -/
def joinCommon (toCommonL : L → C) (toCommonR : R → C) (e : Either L R) :
    Outcome (Returned C) :=
  if e.isLeft then do
    let l ← e.leftValue
    pure (Returned.expired (toCommonL l))
  else do
    let r ← e.rightValue
    pure (Returned.expired (toCommonR r))

/-- The overload `join() &&`, lines 195-201:
`return isLeft ? std::move(leftValue) : std::move(rightValue);` with the declared return type
`std::common_type_t<L2, R2>`: the result is returned by value. -/
def joinCommonRvalue (toCommonL : L → C) (toCommonR : R → C) (e : Either L R) : Outcome C :=
  if e.isLeft then do
    let l ← e.leftValue
    pure (toCommonL (move l))
  else do
    let r ← e.rightValue
    pure (toCommonR (move r))

/-! ## The combinators as the spec derives them from the fold -/

/-- Following the spec's words ("all other transformation operations are expressible in terms
of it"): `leftMap(f)` written as `join(x -> leftOf(f(x)), y -> rightOf(y))`. -/
def leftMapViaJoin (e : Either L R) (leftCase : L → Outcome L2) : Outcome (Either L2 R) :=
  e.join (fun x => do let y ← leftCase x; pure (leftOf y)) (fun y => pure (rightOf y))

/-- Following the spec's words: `rightMap(f)` written as
`join(x -> leftOf(x), y -> rightOf(f(y)))`. -/
def rightMapViaJoin (e : Either L R) (rightCase : R → Outcome R2) : Outcome (Either L R2) :=
  e.join (fun x => pure (leftOf x)) (fun y => do let z ← rightCase y; pure (rightOf z))

/-- Following the spec's words: `leftFlatMap(k)` written as `join(k, y -> rightOf(y))`. -/
def leftFlatMapViaJoin (e : Either L R) (leftCase : L → Outcome (Either L2 R)) :
    Outcome (Either L2 R) :=
  e.join leftCase (fun y => pure (rightOf y))

/-- Following the spec's words: `rightFlatMap(k)` written as `join(x -> leftOf(x), k)`. -/
def rightFlatMapViaJoin (e : Either L R) (rightCase : R → Outcome (Either L R2)) :
    Outcome (Either L R2) :=
  e.join (fun x => pure (leftOf x)) rightCase

/-! ## The flat-maps re-derived with dispatch on the discriminant -/

/-- Following the spec's words (section 9, "discriminant-based dispatch"): `leftFlatMap` with the
branch chosen by `isLeft` itself instead of the boolean conversion. -/
def leftFlatMapByDiscriminant (e : Either L R) (leftCase : L → Outcome (Either L2 R)) :
    Outcome (Either L2 R) :=
  if e.isLeft then do
    let l ← e.leftValue
    leftCase l
  else do
    let r ← e.rightValue
    pure (rightOf r)

/-- Following the spec's words (section 9): `rightFlatMap` with the branch chosen by `isLeft`
itself instead of the boolean conversion. -/
def rightFlatMapByDiscriminant (e : Either L R) (rightCase : R → Outcome (Either L R2)) :
    Outcome (Either L R2) :=
  if e.isLeft then do
    let l ← e.leftValue
    pure (leftOf l)
  else do
    let r ← e.rightValue
    rightCase r

/-! ## Destruction and the payload types' special member functions (either.hpp 134-150) -/

/-- The special member functions of a payload type `T` that the move constructor and the
destructor of `Either` invoke.  They belong to the payload type, so they are parameters; `Res`
is the type of the resources a payload may own. -/
structure Payload (T Res : Type) where
  /-- The call `T(std::move(x))`: the object constructed, and the state `x` is left in. -/
  moveConstruct : T → T × T
  /-- The call `x.~T()`: the resources whose cleanup the destructor invokes, in order. -/
  destruct : T → List Res

/-- A payload type whose move construction transfers ownership: destroying the new object and
the moved-from one invokes, up to order, the cleanups that destroying the original would. -/
def Payload.Transfers {T Res : Type} (p : Payload T Res) : Prop :=
  ∀ x : T, (p.destruct (p.moveConstruct x).2 ++ p.destruct (p.moveConstruct x).1).Perm
    (p.destruct x)

/-- An instrumented payload: a handle that owns the resource with the given number, or owns
nothing.  Moving hands the resource to the new handle and empties the old one; destroying a
handle cleans up the resource it owns, if any. -/
def uniqueHandle : Payload (Option Nat) Nat where
  moveConstruct := fun x => (x, none)
  destruct := fun x => x.toList

variable {Res : Type}

/-- The destructor `~Either()`, lines 144-150: `if (isLeft) leftValue.~L(); else
rightValue.~R();`.  The result is the list of cleanups invoked. -/
def destroy (pl : Payload L Res) (pr : Payload R Res) (e : Either L R) : Outcome (List Res) :=
  if e.isLeft then do
    let l ← e.leftValue
    pure (pl.destruct l)
  else do
    let r ← e.rightValue
    pure (pr.destruct r)

/-- The move constructor `Either(Either<L, R>&& e)`, lines 134-141, with the payload's move
constructor explicit: the result is the object constructed together with the state the source
`e` is left in (its `isLeft` is `const`; its live member is the moved-from payload). -/
def moveFromTracked (pl : Payload L Res) (pr : Payload R Res) (e : Either L R) :
    Outcome (Either L R × Either L R) :=
  if e.isLeft then do
    let l ← e.leftValue
    pure ({ storage := Storage.leftValue (pl.moveConstruct (move l)).1, isLeft := e.isLeft },
          { storage := Storage.leftValue (pl.moveConstruct (move l)).2, isLeft := e.isLeft })
  else do
    let r ← e.rightValue
    pure ({ storage := Storage.rightValue (pr.moveConstruct (move r)).1, isLeft := e.isLeft },
          { storage := Storage.rightValue (pr.moveConstruct (move r)).2, isLeft := e.isLeft })

/-! ## Guarded reads -/

/-- The evaluation did not read a union member that the union does not hold. -/
def ReadsGuarded {α : Type} (o : Outcome α) : Prop :=
  o ≠ Except.error Fault.inactiveRead

/-! ## Library functions used by the scenarios of the spec -/

/-- The library function `std::to_string(int)`: the decimal representation of its argument. -/
def to_string (x : Int) : String :=
  toString x

/-- The library function `std::string::size()`: the number of `char` elements of the string. -/
def size (s : String) : Nat :=
  s.utf8ByteSize

/-! ## The objects a program can obtain -/

/-- The `Either` objects that the public interface hands out: those built by a tagged
constructor (and so by `leftOf` / `rightOf`), by copy or move construction from such an object,
or returned by a map or flat-map applied to such an object.  A flat-map returns what its
continuation returns, so the continuation is required to hand out such objects too. -/
inductive Produced : {L R : Type} → Either L R → Prop where
  | tagLeft {L R : Type} (l : Left L) : Produced (ofLeft l : Either L R)
  | tagRight {L R : Type} (r : Right R) : Produced (ofRight r : Either L R)
  | copied {L R : Type} {e c : Either L R} :
      Produced e → e.copy = Except.ok c → Produced c
  | moved {L R : Type} {e c : Either L R} :
      Produced e → e.moveFrom = Except.ok c → Produced c
  | leftMapped {L R L2 : Type} {e : Either L R} {f : L → Outcome L2} {c : Either L2 R} :
      Produced e → e.leftMap f = Except.ok c → Produced c
  | leftMappedRvalue {L R L2 : Type} {e : Either L R} {f : L → Outcome L2} {c : Either L2 R} :
      Produced e → e.leftMapRvalue f = Except.ok c → Produced c
  | rightMapped {L R R2 : Type} {e : Either L R} {f : R → Outcome R2} {c : Either L R2} :
      Produced e → e.rightMap f = Except.ok c → Produced c
  | rightMappedRvalue {L R R2 : Type} {e : Either L R} {f : R → Outcome R2} {c : Either L R2} :
      Produced e → e.rightMapRvalue f = Except.ok c → Produced c
  | leftFlatMapped {L R L2 : Type} {e : Either L R} {k : L → Outcome (Either L2 R)}
      {c : Either L2 R} :
      Produced e → (∀ x y, k x = Except.ok y → Produced y) →
      e.leftFlatMap k = Except.ok c → Produced c
  | leftFlatMappedRvalue {L R L2 : Type} {e : Either L R} {k : L → Outcome (Either L2 R)}
      {c : Either L2 R} :
      Produced e → (∀ x y, k x = Except.ok y → Produced y) →
      e.leftFlatMapRvalue k = Except.ok c → Produced c
  | rightFlatMapped {L R R2 : Type} {e : Either L R} {k : R → Outcome (Either L R2)}
      {c : Either L R2} :
      Produced e → (∀ x y, k x = Except.ok y → Produced y) →
      e.rightFlatMap k = Except.ok c → Produced c
  | rightFlatMappedRvalue {L R R2 : Type} {e : Either L R} {k : R → Outcome (Either L R2)}
      {c : Either L R2} :
      Produced e → (∀ x y, k x = Except.ok y → Produced y) →
      e.rightFlatMapRvalue k = Except.ok c → Produced c

end Either

/-! ## The representation invariant -/

namespace Either

variable {L R L2 R2 L3 R3 X : Type}

/-- The factory `leftOf` builds an object whose union holds the member `isLeft` names. -/
theorem leftOf_valid (v : L) : (leftOf v : Either L R).Valid := rfl

/-- The factory `rightOf` builds an object whose union holds the member `isLeft` names. -/
theorem rightOf_valid (v : R) : (rightOf v : Either L R).Valid := rfl

/-- An object satisfying the invariant is the result of one of the two factories. -/
theorem eq_leftOf_or_rightOf (e : Either L R) (h : e.Valid) :
    (∃ v : L, e = leftOf v) ∨ (∃ v : R, e = rightOf v) := by
  rcases e with ⟨s, b⟩
  cases s with
  | leftValue l =>
    left
    refine ⟨l, ?_⟩
    cases b
    · simp [Valid, Storage.holdsLeft] at h
    · rfl
  | rightValue r =>
    right
    refine ⟨r, ?_⟩
    cases b
    · rfl
    · simp [Valid, Storage.holdsLeft] at h

/-- A sequenced evaluation produces a value only if its first step does. -/
theorem bind_eq_ok {α β : Type} {o : Outcome α} {g : α → Outcome β} {b : β}
    (h : (o >>= g) = Except.ok b) : ∃ a, o = Except.ok a ∧ g a = Except.ok b := by
  cases o with
  | error f => cases h
  | ok a => exact ⟨a, rfl, h⟩

/-- Whatever the copy constructor builds satisfies the invariant. -/
theorem copy_valid {e c : Either L R} (h : e.copy = Except.ok c) : c.Valid := by
  rcases e with ⟨s, b⟩
  cases s <;> cases b <;> cases h <;> rfl

/-- Whatever the move constructor builds satisfies the invariant. -/
theorem moveFrom_valid {e c : Either L R} (h : e.moveFrom = Except.ok c) : c.Valid := by
  rcases e with ⟨s, b⟩
  cases s <;> cases b <;> cases h <;> rfl

/-- Whatever `leftMap` returns satisfies the invariant. -/
theorem leftMap_valid {e : Either L R} {f : L → Outcome L2} {c : Either L2 R}
    (h : e.leftMap f = Except.ok c) : c.Valid := by
  rcases e with ⟨s, b⟩
  cases s with
  | leftValue l =>
    cases b
    · cases h
    · obtain ⟨y, -, hy⟩ := bind_eq_ok (o := f l) h
      cases hy
      rfl
  | rightValue r =>
    cases b
    · cases h
      rfl
    · cases h

/-- Whatever `rightMap` returns satisfies the invariant. -/
theorem rightMap_valid {e : Either L R} {f : R → Outcome R2} {c : Either L R2}
    (h : e.rightMap f = Except.ok c) : c.Valid := by
  rcases e with ⟨s, b⟩
  cases s with
  | leftValue l =>
    cases b
    · cases h
    · cases h
      rfl
  | rightValue r =>
    cases b
    · obtain ⟨y, -, hy⟩ := bind_eq_ok (o := f r) h
      cases hy
      rfl
    · cases h

/-- Whatever `leftFlatMap` returns satisfies the invariant, when its continuation returns
objects that do. -/
theorem leftFlatMap_valid {e : Either L R} {k : L → Outcome (Either L2 R)} {c : Either L2 R}
    (hk : ∀ x y, k x = Except.ok y → y.Valid) (h : e.leftFlatMap k = Except.ok c) :
    c.Valid := by
  rcases e with ⟨s, b⟩
  cases s with
  | leftValue l =>
    cases b
    · cases h
    · exact hk l c h
  | rightValue r =>
    cases b
    · cases h
      rfl
    · cases h

/-- Whatever `rightFlatMap` returns satisfies the invariant, when its continuation returns
objects that do. -/
theorem rightFlatMap_valid {e : Either L R} {k : R → Outcome (Either L R2)} {c : Either L R2}
    (hk : ∀ x y, k x = Except.ok y → y.Valid) (h : e.rightFlatMap k = Except.ok c) :
    c.Valid := by
  rcases e with ⟨s, b⟩
  cases s with
  | leftValue l =>
    cases b
    · cases h
    · cases h
      rfl
  | rightValue r =>
    cases b
    · exact hk r c h
    · cases h

/-- Every object the public interface hands out satisfies the invariant. -/
theorem produced_valid {e : Either L R} (h : Produced e) : e.Valid := by
  induction h with
  | tagLeft l => rfl
  | tagRight r => rfl
  | copied _ hc _ => exact copy_valid hc
  | moved _ hc _ => exact moveFrom_valid hc
  | leftMapped _ hc _ => exact leftMap_valid hc
  | leftMappedRvalue _ hc _ => exact leftMap_valid hc
  | rightMapped _ hc _ => exact rightMap_valid hc
  | rightMappedRvalue _ hc _ => exact rightMap_valid hc
  | leftFlatMapped _ _ hc _ ih => exact leftFlatMap_valid ih hc
  | leftFlatMappedRvalue _ _ hc _ ih => exact leftFlatMap_valid ih hc
  | rightFlatMapped _ _ hc _ ih => exact rightFlatMap_valid ih hc
  | rightFlatMappedRvalue _ _ hc _ ih => exact rightFlatMap_valid ih hc

/-- Every object satisfying the invariant is one a tagged constructor builds. -/
theorem valid_produced {e : Either L R} (h : e.Valid) : Produced e := by
  rcases eq_leftOf_or_rightOf e h with ⟨v, rfl⟩ | ⟨v, rfl⟩
  · exact Produced.tagLeft (neither.left v)
  · exact Produced.tagRight (neither.right v)

/-! ## Accessors and truthiness -/

/-- C2: for every `Either` `e` (an object whose union holds the member `isLeft` names, as every
constructor leaves it), `e.right()` returns an optional `m` with `bool(e) == m.isPresent()`;
`bool(rightOf(v))` is true and `bool(leftOf(v))` is false for every `v`. -/
theorem toBool_eq_right_isPresent (e : Either L R) (h : e.Valid) :
    (∃ m : Maybe R, e.right = Except.ok m ∧ e.toBool = m.isPresent)
    ∧ (∀ v : R, (rightOf v : Either L R).toBool = true)
    ∧ (∀ v : L, (leftOf v : Either L R).toBool = false) := by
  refine ⟨?_, fun _ => rfl, fun _ => rfl⟩
  rcases e with ⟨s, b⟩
  cases s with
  | leftValue l =>
    cases b
    · simp [Valid, Storage.holdsLeft] at h
    · exact ⟨Maybe.empty, rfl, rfl⟩
  | rightValue r =>
    cases b
    · exact ⟨Maybe.present r, rfl, rfl⟩
    · simp [Valid, Storage.holdsLeft] at h

/-- The truthiness law of C2 at the object `rightOf("ok")` with `L = Nat`, `R = String`. -/
theorem toBool_eq_right_isPresent_witness :
    (rightOf "ok" : Either Nat String).Valid
    ∧ (∃ m : Maybe String, (rightOf "ok" : Either Nat String).right = Except.ok m
        ∧ (rightOf "ok" : Either Nat String).toBool = m.isPresent) :=
  ⟨by decide, (toBool_eq_right_isPresent (rightOf "ok") (by decide)).1⟩

/-! ## The fold and the maps -/

/-- The composition equation between the outcomes of the maps, for every object, also one
on which both sides stop at the same fault. -/
theorem map_composition_outcomes (e : Either L R) (f : L → L2) (g : L2 → L3) (fr : R → R2)
    (gr : R2 → R3) :
    (e.leftMap (fun x => pure (f x)) >>= fun e1 => e1.leftMap (fun y => pure (g y)))
        = e.leftMap (fun x => pure (g (f x)))
    ∧ (e.rightMap (fun x => pure (fr x)) >>= fun e1 => e1.rightMap (fun y => pure (gr y)))
        = e.rightMap (fun x => pure (gr (fr x))) := by
  rcases e with ⟨s, b⟩
  cases s <;> cases b <;> exact ⟨rfl, rfl⟩

/-- The associativity equation between the outcomes of the flat-maps, for every object and
all continuations, also failing ones. -/
theorem flatMap_associativity_outcomes (e : Either L R) (f : L → Outcome (Either L2 R))
    (g : L2 → Outcome (Either L3 R)) (fr : R → Outcome (Either L R2))
    (gr : R2 → Outcome (Either L R3)) :
    (e.leftFlatMap f >>= fun e1 => e1.leftFlatMap g)
        = e.leftFlatMap (fun x => f x >>= fun e1 => e1.leftFlatMap g)
    ∧ (e.rightFlatMap fr >>= fun e1 => e1.rightFlatMap gr)
        = e.rightFlatMap (fun x => fr x >>= fun e1 => e1.rightFlatMap gr) := by
  rcases e with ⟨s, b⟩
  cases s <;> cases b <;> exact ⟨rfl, rfl⟩

/-- C11: the zero-argument `join`.  With the `&&` overload `leftOf(v).join()` is `v` converted to
the common type, `rightOf(v).join()` is `v` converted to the common type, both are `v` itself
when `L` and `R` are one type, and the result is that of `join(identity, identity)` (with the
conversions in place of the identities when the types differ).  The `const` overload differs:
for every `e` it hands out a reference to a temporary that is already destroyed, so reading the
result of `e.join()` on a named `e` yields no value; so it is for
`Either<bool, int> e = leftOf(true)`, where the collapse should give `1`. -/
theorem joinCommon_spec {C T : Type} (toCommonL : L → C) (toCommonR : R → C) (vl : L) (vr : R)
    (v : T) (e : Either L R) (s : Either T T) :
    (joinCommonRvalue toCommonL toCommonR (leftOf vl) = Except.ok (toCommonL vl)
      ∧ joinCommonRvalue toCommonL toCommonR (rightOf vr) = Except.ok (toCommonR vr)
      ∧ joinCommonRvalue id id (leftOf v : Either T T) = Except.ok v
      ∧ joinCommonRvalue id id (rightOf v : Either T T) = Except.ok v
      ∧ joinCommonRvalue id id s = s.join (fun x => pure (id x)) (fun y => pure (id y))
      ∧ joinCommonRvalue toCommonL toCommonR e
          = e.join (fun x => pure (toCommonL x)) (fun y => pure (toCommonR y)))
    ∧ (joinCommon toCommonL toCommonR (leftOf vl) = Except.ok (Returned.expired (toCommonL vl))
      ∧ joinCommon toCommonL toCommonR (rightOf vr)
          = Except.ok (Returned.expired (toCommonR vr))
      ∧ ∀ c : C, (joinCommon toCommonL toCommonR e >>= Returned.read) ≠ Except.ok c)
    ∧ ((joinCommon (fun b : Bool => if b then (1 : Int) else 0) id
          (leftOf true : Either Bool Int) >>= Returned.read) = Except.error Fault.expiredRead
      ∧ joinCommonRvalue (fun b : Bool => if b then (1 : Int) else 0) id
          (leftOf true : Either Bool Int) = Except.ok 1) := by
  refine ⟨⟨rfl, rfl, rfl, rfl, rfl, rfl⟩, ⟨rfl, rfl, ?_⟩, ⟨rfl, rfl⟩⟩
  intro c hc
  rcases e with ⟨st, b⟩
  cases st <;> cases b <;> cases hc

/-- C12: for every `Either` `e` (an object whose union holds the member `isLeft` names, as every
constructor leaves it), copy construction yields an object `c` with the discriminant of `e` and
the payload of `e`, and `c.join(f, g) == e.join(f, g)` for all `f`, `g`. -/
theorem copy_law (e : Either L R) (h : e.Valid) :
    ∃ c : Either L R, e.copy = Except.ok c
      ∧ c.isLeft = e.isLeft
      ∧ c.storage = e.storage
      ∧ ∀ (f : L → Outcome X) (g : R → Outcome X), c.join f g = e.join f g := by
  rcases e with ⟨s, b⟩
  cases s with
  | leftValue l =>
    cases b
    · simp [Valid, Storage.holdsLeft] at h
    · exact ⟨_, rfl, rfl, rfl, fun _ _ => rfl⟩
  | rightValue r =>
    cases b
    · exact ⟨_, rfl, rfl, rfl, fun _ _ => rfl⟩
    · simp [Valid, Storage.holdsLeft] at h

/-- The copy law of C12 at the object `rightOf("ok")` with `L = Nat`, `R = String`, `X = Nat`. -/
theorem copy_law_witness :
    (rightOf "ok" : Either Nat String).Valid
    ∧ ∃ c : Either Nat String, (rightOf "ok" : Either Nat String).copy = Except.ok c
      ∧ c.isLeft = (rightOf "ok" : Either Nat String).isLeft
      ∧ c.storage = (rightOf "ok" : Either Nat String).storage
      ∧ ∀ (f : Nat → Outcome Nat) (g : String → Outcome Nat),
          c.join f g = (rightOf "ok" : Either Nat String).join f g :=
  ⟨by decide, copy_law (rightOf "ok") (by decide)⟩

/-- C13: every transformation is the fold with suitable functions: for every `e`,
`e.leftMap(f)` is `e.join(x -> leftOf(f(x)), y -> rightOf(y))`, `e.rightMap(f)` is
`e.join(x -> leftOf(x), y -> rightOf(f(y)))`, `e.leftFlatMap(k)` is `e.join(k, y -> rightOf(y))`
and `e.rightFlatMap(k)` is `e.join(x -> leftOf(x), k)`. -/
theorem combinators_via_join (e : Either L R) (f : L → Outcome L2) (g : R → Outcome R2)
    (kl : L → Outcome (Either L2 R)) (kr : R → Outcome (Either L R2)) :
    e.leftMap f = e.leftMapViaJoin f
    ∧ e.rightMap g = e.rightMapViaJoin g
    ∧ e.leftFlatMap kl = e.leftFlatMapViaJoin kl
    ∧ e.rightFlatMap kr = e.rightFlatMapViaJoin kr := by
  rcases e with ⟨s, b⟩
  cases s <;> cases b <;> exact ⟨rfl, rfl, rfl, rfl⟩

/-! ## Exactly one live payload, never an inactive read -/

/-- A value is not an inactive read. -/
theorem readsGuarded_ok {α : Type} (a : α) : ReadsGuarded (Except.ok a : Outcome α) := by
  intro h
  cases h

/-- Rewrapping the value of an evaluation adds no read. -/
theorem readsGuarded_bind_pure {α β : Type} {o : Outcome α} (g : α → β)
    (h : ReadsGuarded o) : ReadsGuarded (o >>= fun y => (pure (g y) : Outcome β)) := by
  cases o with
  | error f =>
    intro hc
    cases hc
    exact h rfl
  | ok a => exact readsGuarded_ok (g a)

/-- C14: every `Either` produced by a tagged constructor (so by `leftOf` or `rightOf`), by copy
or move construction, or by `leftMap`, `rightMap`, `leftFlatMap` or `rightFlatMap` holds exactly
one live payload consistent with its discriminant: `left()` and `right()` both return, exactly
one of the two optionals is present, and `left()` is present if and only if `isLeft` is true. -/
theorem produced_exactly_one (e : Either L R) (h : Produced e) :
    ∃ (ml : Maybe L) (mr : Maybe R), e.left = Except.ok ml ∧ e.right = Except.ok mr
      ∧ xor ml.isPresent mr.isPresent = true
      ∧ (ml.isPresent = true ↔ e.isLeft = true) := by
  have hv := produced_valid h
  rcases e with ⟨s, b⟩
  cases s with
  | leftValue l =>
    cases b
    · simp [Valid, Storage.holdsLeft] at hv
    · exact ⟨Maybe.present l, Maybe.empty, rfl, rfl, rfl, Iff.rfl⟩
  | rightValue r =>
    cases b
    · exact ⟨Maybe.empty, Maybe.present r, rfl, rfl, rfl, Iff.rfl⟩
    · simp [Valid, Storage.holdsLeft] at hv

/-- The invariant of C14 at `rightOf(3).leftMap(x -> x + 1)` with `L = Nat`, `R = Nat`, an
object produced by a factory followed by a map. -/
theorem produced_exactly_one_witness :
    Produced (rightOf 3 : Either Nat Nat)
    ∧ ∃ (ml : Maybe Nat) (mr : Maybe Nat), (rightOf 3 : Either Nat Nat).left = Except.ok ml
      ∧ (rightOf 3 : Either Nat Nat).right = Except.ok mr
      ∧ xor ml.isPresent mr.isPresent = true
      ∧ (ml.isPresent = true ↔ (rightOf 3 : Either Nat Nat).isLeft = true) :=
  ⟨Produced.leftMapped (f := fun x => pure (x + 1)) (Produced.tagRight (neither.right 3)) rfl,
    produced_exactly_one (rightOf 3)
      (Produced.leftMapped (f := fun x => pure (x + 1)) (Produced.tagRight (neither.right 3))
        rfl)⟩

/-- C15: no public operation reads the inactive payload.  For every `Either` `e` (an object
whose union holds the member `isLeft` names, as every constructor leaves it) and all callables
that do not themselves report such a read, none of `left()`, `right()`, the three `join` forms,
`leftMap`, `rightMap`, `leftFlatMap`, `rightFlatMap` (both overloads of each), copy
construction, move construction and destruction ends in the guarded read's invalid branch. -/
theorem reads_guarded {C : Type} (e : Either L R) (h : e.Valid)
    (toCommonL : L → C) (toCommonR : R → C)
    (onLeft : L → Outcome X) (onRight : R → Outcome X)
    (f : L → Outcome L2) (g : R → Outcome R2)
    (kl : L → Outcome (Either L2 R)) (kr : R → Outcome (Either L R2))
    (pl : Payload L Res) (pr : Payload R Res)
    (hOnLeft : ∀ x, ReadsGuarded (onLeft x)) (hOnRight : ∀ y, ReadsGuarded (onRight y))
    (hf : ∀ x, ReadsGuarded (f x)) (hg : ∀ y, ReadsGuarded (g y))
    (hkl : ∀ x, ReadsGuarded (kl x)) (hkr : ∀ y, ReadsGuarded (kr y)) :
    (ReadsGuarded e.left ∧ ReadsGuarded e.right)
    ∧ (ReadsGuarded (joinCommon toCommonL toCommonR e)
      ∧ ReadsGuarded (joinCommonRvalue toCommonL toCommonR e)
      ∧ ReadsGuarded (e.join onLeft onRight))
    ∧ (ReadsGuarded (e.leftMap f) ∧ ReadsGuarded (e.leftMapRvalue f)
      ∧ ReadsGuarded (e.rightMap g) ∧ ReadsGuarded (e.rightMapRvalue g))
    ∧ (ReadsGuarded (e.leftFlatMap kl) ∧ ReadsGuarded (e.leftFlatMapRvalue kl)
      ∧ ReadsGuarded (e.rightFlatMap kr) ∧ ReadsGuarded (e.rightFlatMapRvalue kr))
    ∧ (ReadsGuarded e.copy ∧ ReadsGuarded e.moveFrom
      ∧ ReadsGuarded (moveFromTracked pl pr e) ∧ ReadsGuarded (destroy pl pr e)) := by
  rcases e with ⟨s, b⟩
  cases s with
  | leftValue l =>
    cases b
    · simp [Valid, Storage.holdsLeft] at h
    · exact ⟨⟨readsGuarded_ok _, readsGuarded_ok _⟩,
        ⟨readsGuarded_ok _, readsGuarded_ok _, hOnLeft l⟩,
        ⟨readsGuarded_bind_pure _ (hf l), readsGuarded_bind_pure _ (hf l),
          readsGuarded_ok _, readsGuarded_ok _⟩,
        ⟨hkl l, hkl l, readsGuarded_ok _, readsGuarded_ok _⟩,
        ⟨readsGuarded_ok _, readsGuarded_ok _, readsGuarded_ok _, readsGuarded_ok _⟩⟩
  | rightValue r =>
    cases b
    · exact ⟨⟨readsGuarded_ok _, readsGuarded_ok _⟩,
        ⟨readsGuarded_ok _, readsGuarded_ok _, hOnRight r⟩,
        ⟨readsGuarded_ok _, readsGuarded_ok _,
          readsGuarded_bind_pure _ (hg r), readsGuarded_bind_pure _ (hg r)⟩,
        ⟨readsGuarded_ok _, readsGuarded_ok _, hkr r, hkr r⟩,
        ⟨readsGuarded_ok _, readsGuarded_ok _, readsGuarded_ok _, readsGuarded_ok _⟩⟩
    · simp [Valid, Storage.holdsLeft] at h

/-- The safety statement of C15 at the object `leftOf(5)` with `L = Nat`, `R = String`, a
right-hand callable that always fails and handles as payload operations. -/
theorem reads_guarded_witness :
    (leftOf 5 : Either Nat String).Valid
    ∧ ReadsGuarded (leftOf 5 : Either Nat String).left
    ∧ ReadsGuarded (leftOf 5 : Either Nat String).right :=
  ⟨by decide,
    (reads_guarded (leftOf 5 : Either Nat String) (by decide)
      (fun x => toString x) (fun y => y)
      (fun x => pure (x + 1)) (fun _ => (Except.error Fault.calleeFailed : Outcome Nat))
      (fun x => pure (x + 1)) (fun _ => (Except.error Fault.calleeFailed : Outcome Nat))
      (fun x => pure (leftOf x : Either Nat String))
      (fun y => pure (rightOf (size y) : Either Nat Nat))
      ({ moveConstruct := fun x => (x, 0), destruct := fun x => [x] } : Payload Nat Nat)
      ({ moveConstruct := fun x => (x, ""), destruct := fun _ => [] } : Payload String Nat)
      (fun _ => readsGuarded_ok _) (fun _ => by simp [ReadsGuarded])
      (fun _ => readsGuarded_ok _) (fun _ => by simp [ReadsGuarded])
      (fun _ => readsGuarded_ok _) (fun _ => readsGuarded_ok _)).1⟩

/-! ## The scenarios of the spec -/

/-- C16: with `L = int`, `R = string` and `e = leftOf(5)`: `e.right()` is empty, `e.left()` is
present(5), `bool(e)` is false, `e.leftMap(x -> x+1)` is `leftOf(6)`, `e.rightMap(s -> s+"!")` is
`leftOf(5)` unchanged, and `e.join(x -> to_string(x), s -> s)` is the string "5". -/
theorem scenario_leftOf_five :
    (leftOf 5 : Either Int String).right = Except.ok Maybe.empty
    ∧ (leftOf 5 : Either Int String).left = Except.ok (Maybe.present 5)
    ∧ (leftOf 5 : Either Int String).toBool = false
    ∧ (leftOf 5 : Either Int String).leftMap (fun x => pure (x + 1)) = Except.ok (leftOf 6)
    ∧ (leftOf 5 : Either Int String).rightMap (fun s => pure (s ++ "!")) = Except.ok (leftOf 5)
    ∧ (leftOf 5 : Either Int String).join (fun x => pure (to_string x)) (fun s => pure s)
        = Except.ok "5" :=
  ⟨rfl, rfl, rfl, rfl, rfl, rfl⟩

/-- C17: with `e2 = rightOf(string "ok")` and `L = int`: `bool(e2)` is true,
`e2.leftFlatMap(x -> leftOf(x*2))` is `rightOf("ok")` unchanged, and
`e2.rightFlatMap(s -> rightOf(s.size()))` is `rightOf(2)`, whose right type is an integer
type. -/
theorem scenario_rightOf_ok :
    (rightOf "ok" : Either Int String).toBool = true
    ∧ (rightOf "ok" : Either Int String).leftFlatMap
        (fun x => pure (leftOf (x * 2) : Either Int String)) = Except.ok (rightOf "ok")
    ∧ (rightOf "ok" : Either Int String).rightFlatMap
        (fun s => pure (rightOf (size s) : Either Int Nat))
        = Except.ok (rightOf 2 : Either Int Nat) :=
  ⟨rfl, rfl, rfl⟩

/-! ## Move construction and destruction -/

/-- The instrumented handle transfers ownership when moved. -/
theorem uniqueHandle_transfers : uniqueHandle.Transfers :=
  fun _ => List.Perm.refl _

/-- C18: move-constructing a target from a source `Either` and then destroying both source and
target invokes each resource's cleanup exactly once in total: the cleanups of the two
destructions are, up to order, exactly those that destroying the source alone would have
invoked, for payload types whose move construction transfers ownership.  The move constructor
constructs in the target exactly the payload the source's discriminant names, from the source's
live payload, and copies the discriminant unchanged; each destruction runs the destructor of the
live payload type only. -/
theorem move_then_destroy [DecidableEq Res] (pl : Payload L Res) (pr : Payload R Res)
    (hl : pl.Transfers) (hr : pr.Transfers) (e : Either L R) (h : e.Valid) :
    ∃ (target source : Either L R) (owned ds dt : List Res),
      moveFromTracked pl pr e = Except.ok (target, source)
      ∧ (target.isLeft = e.isLeft ∧ target.storage.holdsLeft = e.isLeft)
      ∧ (source.isLeft = e.isLeft ∧ source.storage.holdsLeft = e.isLeft)
      ∧ (destroy pl pr e = Except.ok owned ∧ destroy pl pr source = Except.ok ds
          ∧ destroy pl pr target = Except.ok dt)
      ∧ ((ds ++ dt).Perm owned ∧ ∀ r, owned.count r = 1 → (ds ++ dt).count r = 1)
      ∧ (e.isLeft = true → ∃ l, e.leftValue = Except.ok l
          ∧ target.leftValue = Except.ok (pl.moveConstruct l).1
          ∧ source.leftValue = Except.ok (pl.moveConstruct l).2
          ∧ owned = pl.destruct l
          ∧ ds = pl.destruct (pl.moveConstruct l).2 ∧ dt = pl.destruct (pl.moveConstruct l).1)
      ∧ (e.isLeft = false → ∃ r, e.rightValue = Except.ok r
          ∧ target.rightValue = Except.ok (pr.moveConstruct r).1
          ∧ source.rightValue = Except.ok (pr.moveConstruct r).2
          ∧ owned = pr.destruct r
          ∧ ds = pr.destruct (pr.moveConstruct r).2 ∧ dt = pr.destruct (pr.moveConstruct r).1) := by
  rcases e with ⟨s, b⟩
  cases s with
  | leftValue l =>
    cases b
    · simp [Valid, Storage.holdsLeft] at h
    · refine ⟨_, _, _, _, _, rfl, ⟨rfl, rfl⟩, ⟨rfl, rfl⟩, ⟨rfl, rfl, rfl⟩, ⟨hl l, ?_⟩, ?_, ?_⟩
      · intro r hr1
        exact ((hl l).count_eq r).trans hr1
      · intro _
        exact ⟨l, rfl, rfl, rfl, rfl, rfl, rfl⟩
      · intro hc
        cases hc
  | rightValue r =>
    cases b
    · refine ⟨_, _, _, _, _, rfl, ⟨rfl, rfl⟩, ⟨rfl, rfl⟩, ⟨rfl, rfl, rfl⟩, ⟨hr r, ?_⟩, ?_, ?_⟩
      · intro x hx1
        exact ((hr r).count_eq x).trans hx1
      · intro hc
        cases hc
      · intro _
        exact ⟨r, rfl, rfl, rfl, rfl, rfl, rfl⟩
    · simp [Valid, Storage.holdsLeft] at h

/-- The move scenario of C18 with the instrumented handle as both payload types, at the source
`leftOf(handle 7)`. -/
theorem move_then_destroy_witness :
    uniqueHandle.Transfers ∧ (leftOf (some 7) : Either (Option Nat) (Option Nat)).Valid
    ∧ ∃ (target source : Either (Option Nat) (Option Nat)) (owned ds dt : List Nat),
      moveFromTracked uniqueHandle uniqueHandle (leftOf (some 7)) = Except.ok (target, source)
      ∧ (target.isLeft = (leftOf (some 7) : Either (Option Nat) (Option Nat)).isLeft
          ∧ target.storage.holdsLeft
            = (leftOf (some 7) : Either (Option Nat) (Option Nat)).isLeft)
      ∧ (source.isLeft = (leftOf (some 7) : Either (Option Nat) (Option Nat)).isLeft
          ∧ source.storage.holdsLeft
            = (leftOf (some 7) : Either (Option Nat) (Option Nat)).isLeft)
      ∧ (destroy uniqueHandle uniqueHandle (leftOf (some 7)) = Except.ok owned
          ∧ destroy uniqueHandle uniqueHandle source = Except.ok ds
          ∧ destroy uniqueHandle uniqueHandle target = Except.ok dt)
      ∧ ((ds ++ dt).Perm owned ∧ ∀ r, owned.count r = 1 → (ds ++ dt).count r = 1) :=
  ⟨uniqueHandle_transfers, by decide,
    match move_then_destroy uniqueHandle uniqueHandle uniqueHandle_transfers
      uniqueHandle_transfers (leftOf (some 7)) (by decide) with
    | ⟨target, source, owned, ds, dt, h1, h2, h3, h4, h5, _⟩ =>
      ⟨target, source, owned, ds, dt, h1, h2, h3, h4, h5⟩⟩

/-! ## The flat-maps dispatch on the discriminant; the overloads agree -/

/-- C19: `leftFlatMap` and `rightFlatMap`, which branch on the boolean conversion, return what
the versions branching on `isLeft` return, for every `e` and continuation `k` and for both
overloads.  For every `Either` `e` (an object whose union holds the member `isLeft` names, as
every constructor leaves it), `leftFlatMap` invokes `k` exactly when `isLeft` is true, and
`rightFlatMap` exactly when `isLeft` is false: on that side the result is `k` of the payload, on
the other side it is the same for every `k`, and a continuation that always fails makes the
call fail on that side only. -/
theorem flatMap_dispatch (e : Either L R) (h : e.Valid) (kl : L → Outcome (Either L2 R))
    (kr : R → Outcome (Either L R2)) :
    (e.leftFlatMap kl = e.leftFlatMapByDiscriminant kl
      ∧ e.leftFlatMapRvalue kl = e.leftFlatMapByDiscriminant kl
      ∧ e.rightFlatMap kr = e.rightFlatMapByDiscriminant kr
      ∧ e.rightFlatMapRvalue kr = e.rightFlatMapByDiscriminant kr)
    ∧ (e.isLeft = true → ∃ l, e.leftValue = Except.ok l
        ∧ (∀ k : L → Outcome (Either L2 R), e.leftFlatMap k = k l)
        ∧ ∀ k : R → Outcome (Either L R2), e.rightFlatMap k = Except.ok (leftOf l))
    ∧ (e.isLeft = false → ∃ r, e.rightValue = Except.ok r
        ∧ (∀ k : L → Outcome (Either L2 R), e.leftFlatMap k = Except.ok (rightOf r))
        ∧ ∀ k : R → Outcome (Either L R2), e.rightFlatMap k = k r)
    ∧ ((e.leftFlatMap (fun _ => (Except.error Fault.calleeFailed : Outcome (Either L2 R)))
          = Except.error Fault.calleeFailed ↔ e.isLeft = true)
      ∧ (e.rightFlatMap (fun _ => (Except.error Fault.calleeFailed : Outcome (Either L R2)))
          = Except.error Fault.calleeFailed ↔ e.isLeft = false)) := by
  rcases e with ⟨s, b⟩
  cases s with
  | leftValue l =>
    cases b
    · simp [Valid, Storage.holdsLeft] at h
    · refine ⟨⟨rfl, rfl, rfl, rfl⟩, fun _ => ⟨l, rfl, fun _ => rfl, fun _ => rfl⟩, ?_, ?_, ?_⟩
      · intro hc
        cases hc
      · exact ⟨fun _ => rfl, fun _ => rfl⟩
      · constructor
        · intro hc
          cases hc
        · intro hc
          cases hc
  | rightValue r =>
    cases b
    · refine ⟨⟨rfl, rfl, rfl, rfl⟩, ?_, fun _ => ⟨r, rfl, fun _ => rfl, fun _ => rfl⟩, ?_, ?_⟩
      · intro hc
        cases hc
      · constructor
        · intro hc
          cases hc
        · intro hc
          cases hc
      · exact ⟨fun _ => rfl, fun _ => rfl⟩
    · simp [Valid, Storage.holdsLeft] at h

/-- The dispatch statement of C19 at the object `rightOf("ok")` with `L = Nat`,
`R = String`. -/
theorem flatMap_dispatch_witness :
    (rightOf "ok" : Either Nat String).Valid
    ∧ (rightOf "ok" : Either Nat String).leftFlatMap
        (fun x => pure (leftOf (x * 2) : Either Nat String))
        = (rightOf "ok" : Either Nat String).leftFlatMapByDiscriminant
            (fun x => pure (leftOf (x * 2) : Either Nat String)) :=
  ⟨by decide,
    (flatMap_dispatch (rightOf "ok" : Either Nat String) (by decide)
      (fun x => pure (leftOf (x * 2) : Either Nat String))
      (fun s => pure (rightOf (size s) : Either Nat Nat))).1.1⟩

/-- The `&&` overloads of the maps and flat-maps compute what the `const&` overloads compute,
for callables whose result on a moved argument (`fMove`, `kMove`) is their result on a copied
one (`f`, `k`). -/
theorem overloads_agree_of_callables (e : Either L R)
    (f fMove : L → Outcome L2) (g gMove : R → Outcome R2)
    (kl klMove : L → Outcome (Either L2 R)) (kr krMove : R → Outcome (Either L R2))
    (hf : ∀ x, fMove x = f x) (hg : ∀ y, gMove y = g y)
    (hkl : ∀ x, klMove x = kl x) (hkr : ∀ y, krMove y = kr y) :
    e.leftMapRvalue fMove = e.leftMap f
    ∧ e.rightMapRvalue gMove = e.rightMap g
    ∧ e.leftFlatMapRvalue klMove = e.leftFlatMap kl
    ∧ e.rightFlatMapRvalue krMove = e.rightFlatMap kr := by
  obtain rfl : fMove = f := funext hf
  obtain rfl : gMove = g := funext hg
  obtain rfl : klMove = kl := funext hkl
  obtain rfl : krMove = kr := funext hkr
  exact ⟨rfl, rfl, rfl, rfl⟩

/-- C20: the `&&` and the `const&` overloads.  For every `e` and every callable, the two forms
of `leftMap`, of `rightMap`, of `leftFlatMap` and of `rightFlatMap` return equal results.  The
two forms of the zero-argument `join` do not: for `Either<bool, int> e = leftOf(true)` the `&&`
form returns `1`, while what the `const` form returns cannot be read, being a reference to a
destroyed temporary; and so for every `e`. -/
theorem rvalue_overloads_agree {C : Type} (e : Either L R) (toCommonL : L → C)
    (toCommonR : R → C) (f : L → Outcome L2) (g : R → Outcome R2)
    (kl : L → Outcome (Either L2 R)) (kr : R → Outcome (Either L R2)) :
    (e.leftMapRvalue f = e.leftMap f
      ∧ e.rightMapRvalue g = e.rightMap g
      ∧ e.leftFlatMapRvalue kl = e.leftFlatMap kl
      ∧ e.rightFlatMapRvalue kr = e.rightFlatMap kr)
    ∧ (joinCommonRvalue (fun b : Bool => if b then (1 : Int) else 0) id
          (leftOf true : Either Bool Int) = Except.ok 1
      ∧ (joinCommon (fun b : Bool => if b then (1 : Int) else 0) id
          (leftOf true : Either Bool Int) >>= Returned.read) = Except.error Fault.expiredRead)
    ∧ ∀ c : C, (joinCommon toCommonL toCommonR e >>= Returned.read) ≠ Except.ok c := by
  refine ⟨overloads_agree_of_callables e f f g g kl kl kr kr (fun _ => rfl) (fun _ => rfl)
    (fun _ => rfl) (fun _ => rfl), ⟨rfl, rfl⟩, ?_⟩
  intro c hc
  rcases e with ⟨st, b⟩
  cases st <;> cases b <;> cases hc

end Either

end neither
